import Mathlib

/-!
# Chat view of `frontend/src/App.jsx`

A shallow embedding of the `App` component: its four pieces of React state
(`messages`, `input`, `loading`, `sessionId`), the mount effect, the two
asynchronous handlers `sendMessage` and `clearChat`, and the event loop that
interleaves them with the settlement of their HTTP requests.

Conventions of the embedding.

* A JavaScript string is a Lean `String`; `String.prototype.trim` is `jsTrim`.
* `undefined`, `null` and an absent object key are `none`.
* `new Date().toISOString()` is a `String` argument (`iso`), `Date.now()` a
  `Nat` argument (`now`), and the text
  `Math.random().toString(36).substr(2, 9)` a `String` argument (`rand`).
* An `async` handler is cut at its `await`: the part before it issues the
  request, the part after it runs when the request settles.  A promise that
  rejects is an `Except.error`.
* A handler reads `input`, `loading` and `sessionId` from the render it was
  created in; React renders again after every event that sets state, so at
  the start of a handler these are the current state, and after an `await`
  the handlers only call setters.
* Calls that touch no React state are left out: `e.preventDefault()`, the
  scroll effect on `messages`, and the rendering.
-/

namespace App

/-! ## JavaScript strings -/

/-- Code points that `String.prototype.trim` strips: the ECMAScript
`WhiteSpace` and `LineTerminator` productions. -/
def whiteSpaceCodes : List Nat :=
  [0x0009, 0x000A, 0x000B, 0x000C, 0x000D, 0x0020, 0x00A0, 0x1680,
   0x2000, 0x2001, 0x2002, 0x2003, 0x2004, 0x2005, 0x2006, 0x2007,
   0x2008, 0x2009, 0x200A, 0x2028, 0x2029, 0x202F, 0x205F, 0x3000, 0xFEFF]

/-- Whether `trim` treats the character as white space. -/
def isWhiteSpace (c : Char) : Bool :=
  decide (c.toNat ∈ whiteSpaceCodes)

/-- Trimming on the list of characters: drop the leading white space, then
the trailing white space. -/
def trimChars (l : List Char) : List Char :=
  ((l.dropWhile isWhiteSpace).reverse.dropWhile isWhiteSpace).reverse

/-- The JavaScript `s.trim()`. -/
def jsTrim (s : String) : String :=
  ⟨trimChars s.data⟩

/-- Truthiness of a JavaScript string: every string but the empty one. -/
def truthy (s : String) : Bool :=
  !(s.data.isEmpty)

/-- Truthiness of a value that is a string or `null`. -/
def truthyOpt : Option String → Bool
  | none => false
  | some s => truthy s

/-! ## Data model -/

/-- The `role` of a message. -/
inductive Role where
  | user
  | assistant
  deriving DecidableEq, Repr

/-- An entry of the `messages` array.  The keys `escalation_needed` and
`error` are `none` when the object literal does not have them or holds
`undefined` there. -/
structure Message where
  role : Role
  content : String
  timestamp : String
  escalation_needed : Option Bool
  error : Option Bool
  deriving DecidableEq, Repr

/-- The React state of `App`: the four `useState` cells. -/
structure View where
  messages : List Message
  input : String
  loading : Bool
  sessionId : Option String
  deriving DecidableEq, Repr

/-- The state of the first render: `useState([])`, `useState('')`,
`useState(false)`, `useState(null)`. -/
def View.initial : View :=
  { messages := [], input := "", loading := false, sessionId := none }

/-- The constant `API_BASE_URL`. -/
def API_BASE_URL : String := "http://localhost:8888"

/-- The body that `sendMessage` posts. -/
structure QueryBody where
  query : String
  session_id : Option String
  deriving DecidableEq, Repr

/-- The call `axios.post(url, body)`. -/
structure PostRequest where
  url : String
  body : QueryBody
  deriving DecidableEq, Repr

/-- The call `axios.delete(url)`. -/
structure DeleteRequest where
  url : String
  deriving DecidableEq, Repr

/-- The `data` of a reply to `POST /query`. -/
structure ReplyData where
  response : String
  timestamp : String
  escalation_needed : Option Bool
  deriving DecidableEq, Repr

/-- The value a resolved `axios.post` promise carries. -/
structure AxiosResponse where
  status : Nat
  data : ReplyData
  deriving DecidableEq, Repr

/-- The value a rejected axios promise carries. -/
inductive RequestError where
  | network (message : String)
  | badStatus (status : Nat)
  | timeout
  deriving DecidableEq, Repr

/-! ## Handlers as state transformers that may throw -/

/-- A piece of handler code: it runs on the current React state, leaves a new
state, and either completes with a value or throws. -/
def Eff (α : Type) : Type :=
  View → Except RequestError α × View

/-- Normal completion with a value. -/
def Eff.pure {α : Type} (a : α) : Eff α :=
  fun s => (Except.ok a, s)

/-- Sequencing: a throw in the first part skips the second. -/
def Eff.bind {α β : Type} (m : Eff α) (f : α → Eff β) : Eff β :=
  fun s =>
    match m s with
    | (Except.ok a, s1) => f a s1
    | (Except.error e, s1) => (Except.error e, s1)

instance : Monad Eff where
  pure := Eff.pure
  bind := Eff.bind

/-- Resuming after `await p`: the value of a resolved promise, a throw for a
rejected one. -/
def await {α : Type} (p : Except RequestError α) : Eff α :=
  fun s => (p, s)

/-- The statement `try body catch (error) handler finally finalizer`: the
handler runs when the body throws, the finalizer runs on every path, and the
statement throws only what the handler (or the finalizer) throws. -/
def tryCatchFinally (body : Eff Unit) (handler : RequestError → Eff Unit)
    (finalizer : Eff Unit) : Eff Unit :=
  fun s =>
    let r :=
      match body s with
      | (Except.ok a, s1) => (Except.ok a, s1)
      | (Except.error e, s1) => handler e s1
    match finalizer r.2 with
    | (Except.ok _, s2) => (r.1, s2)
    | (Except.error e, s2) => (Except.error e, s2)

/-- The statement `try body catch (error) handler`. -/
def tryCatch (body : Eff Unit) (handler : RequestError → Eff Unit) : Eff Unit :=
  fun s =>
    match body s with
    | (Except.ok a, s1) => (Except.ok a, s1)
    | (Except.error e, s1) => handler e s1

/-- The setter `setMessages`, called with an updater function. -/
def setMessages (f : List Message → List Message) : Eff Unit :=
  fun s => (Except.ok (), { s with messages := f s.messages })

/-- The setter `setInput`. -/
def setInput (v : String) : Eff Unit :=
  fun s => (Except.ok (), { s with input := v })

/-- The setter `setLoading`. -/
def setLoading (v : Bool) : Eff Unit :=
  fun s => (Except.ok (), { s with loading := v })

/-- The setter `setSessionId`. -/
def setSessionId (v : Option String) : Eff Unit :=
  fun s => (Except.ok (), { s with sessionId := v })

/-- Reading the state the handler closed over. -/
def getView : Eff View :=
  fun s => (Except.ok s, s)

/-- The call `console.error(...)`: no effect on the state. -/
def consoleError (_label : String) (_error : RequestError) : Eff Unit :=
  Eff.pure ()

/-! ## The component -/

/-- The text of the welcome message. -/
def welcomeText : String :=
  "Hello! I'm your AI customer support assistant. How can I help you today?"

/-- The text of the message shown when a query fails. -/
def apologyText : String :=
  "I apologize, but I'm having trouble processing your request right now. Please try again or contact our support team directly."

/-- The template string that builds a session token from `Date.now()` and the
random suffix. -/
def newSessionId (now : Nat) (rand : String) : String :=
  "session_" ++ toString now ++ "_" ++ rand

/-- The welcome message object, with the time it was created. -/
def welcomeMessage (iso : String) : Message :=
  { role := Role.assistant, content := welcomeText, timestamp := iso,
    escalation_needed := none, error := none }

/-- The mount effect (`useEffect(..., [])`). -/
def mount (now : Nat) (rand : String) (iso : String) : Eff Unit := do
  let newSessionId := newSessionId now rand
  setSessionId (some newSessionId)
  setMessages (fun _ => [welcomeMessage iso])

/-- The object `userMessage` of `sendMessage`. -/
def userMessage (input : String) (iso : String) : Message :=
  { role := Role.user, content := jsTrim input, timestamp := iso,
    escalation_needed := none, error := none }

/-- The object `assistantMessage` of `sendMessage`. -/
def assistantMessage (response : AxiosResponse) : Message :=
  { role := Role.assistant, content := response.data.response,
    timestamp := response.data.timestamp,
    escalation_needed := response.data.escalation_needed, error := none }

/-- The object `errorMessage` of `sendMessage`. -/
def errorMessage (iso : String) : Message :=
  { role := Role.assistant, content := apologyText, timestamp := iso,
    escalation_needed := none, error := some true }

/-- The part of `sendMessage` up to its `await`: the guard, the local echo,
and the request it issues (`none` when the guard returns early). -/
def sendMessage_start (iso : String) : Eff (Option PostRequest) := do
  let s ← getView
  if !(truthy (jsTrim s.input)) || s.loading then
    return none
  let userMessage := userMessage s.input iso
  setMessages (fun prev => prev ++ [userMessage])
  setInput ""
  setLoading true
  return some { url := API_BASE_URL ++ "/query",
                body := { query := userMessage.content, session_id := s.sessionId } }

/-- The part of `sendMessage` from its `await` on: it runs when the request
settles, with `iso` the clock reading of the `catch` branch. -/
def sendMessage_settle (settled : Except RequestError AxiosResponse) (iso : String) :
    Eff Unit :=
  tryCatchFinally
    (do
      let response ← await settled
      let assistantMessage := assistantMessage response
      setMessages (fun prev => prev ++ [assistantMessage]))
    (fun error => do
      consoleError "Error sending message:" error
      let errorMessage := errorMessage iso
      setMessages (fun prev => prev ++ [errorMessage]))
    (setLoading false)

/-- The part of `clearChat` up to its `await`: the DELETE request it issues
when `sessionId` is truthy. -/
def clearChat_start : Eff (Option DeleteRequest) := do
  let s ← getView
  match s.sessionId with
  | some sessionId =>
    if truthy sessionId then
      return some { url := API_BASE_URL ++ "/session/" ++ sessionId }
    else
      return none
  | none => return none

/-- The `try`/`catch` around the awaited DELETE of `clearChat`. -/
def clearChat_await (settled : Except RequestError Unit) : Eff Unit :=
  tryCatch (await settled) (fun error => consoleError "Error clearing session:" error)

/-- The part of `clearChat` after the `if`: a new session token and the
welcome message. -/
def clearChat_reset (now : Nat) (rand : String) (iso : String) : Eff Unit := do
  let newSessionId := newSessionId now rand
  setSessionId (some newSessionId)
  setMessages (fun _ => [welcomeMessage iso])

/-- The part of `clearChat` that runs when its DELETE settles. -/
def clearChat_settle (settled : Except RequestError Unit) (now : Nat) (rand : String)
    (iso : String) : Eff Unit := do
  clearChat_await settled
  clearChat_reset now rand iso

/-- The handler `clearChat` run to completion with no other event in between:
`settled` is the outcome of the DELETE when one is issued. -/
def clearChat (settled : Except RequestError Unit) (now : Nat) (rand : String)
    (iso : String) : Eff Unit := do
  match ← clearChat_start with
  | some _ => clearChat_settle settled now rand iso
  | none => clearChat_reset now rand iso

/-! ## The event loop -/

/-- What the page holds between two events: the React state and the handler
calls suspended at an `await`, each with the request it waits for. -/
structure World where
  view : View
  posts : List PostRequest
  deletes : List DeleteRequest
  deriving DecidableEq, Repr

/-- The page before the first render is committed. -/
def World.initial : World :=
  { view := View.initial, posts := [], deletes := [] }

/-- The events the page reacts to: the mount effect, a change of the draft
(typing, or a quick-question button), a submit of the form, the settlement of
the `i`-th outstanding POST, a click on the clear button, and the settlement
of the `i`-th outstanding DELETE. -/
inductive Event where
  | mounted (now : Nat) (rand : String) (iso : String)
  | changed (value : String)
  | submitted (iso : String)
  | postSettled (i : Nat) (settled : Except RequestError AxiosResponse) (iso : String)
  | clearClicked (now : Nat) (rand : String) (iso : String)
  | deleteSettled (i : Nat) (settled : Except RequestError Unit) (now : Nat)
      (rand : String) (iso : String)

/-- One turn of the event loop. -/
def step (w : World) : Event → World
  | Event.mounted now rand iso =>
    { w with view := (mount now rand iso w.view).2 }
  | Event.changed value =>
    { w with view := (setInput value w.view).2 }
  | Event.submitted iso =>
    match sendMessage_start iso w.view with
    | (Except.ok (some request), v) => { w with view := v, posts := w.posts ++ [request] }
    | (_, v) => { w with view := v }
  | Event.postSettled i settled iso =>
    if i < w.posts.length then
      { w with view := (sendMessage_settle settled iso w.view).2,
               posts := w.posts.eraseIdx i }
    else w
  | Event.clearClicked now rand iso =>
    match clearChat_start w.view with
    | (Except.ok (some request), v) => { w with view := v, deletes := w.deletes ++ [request] }
    | (Except.ok none, v) => { w with view := (clearChat_reset now rand iso v).2 }
    | (Except.error _, v) => { w with view := v }
  | Event.deleteSettled i settled now rand iso =>
    if i < w.deletes.length then
      { w with view := (clearChat_settle settled now rand iso w.view).2,
               deletes := w.deletes.eraseIdx i }
    else w

/-- The page after a sequence of events, starting from `w`. -/
def run (w : World) (events : List Event) : World :=
  events.foldl step w

/-! ## Vocabulary of the properties -/

/-- The clock reading, random suffix and timestamp one reset consumes, with
the outcome of its DELETE. -/
structure ResetInput where
  settled : Except RequestError Unit
  now : Nat
  rand : String
  iso : String

/-- The session tokens that successive `clearChat` calls leave in the state,
starting from `s`. -/
def tokensAfterResets (s : View) : List ResetInput → List (Option String)
  | [] => []
  | r :: rs =>
    let s1 := (clearChat r.settled r.now r.rand r.iso s).2
    s1.sessionId :: tokensAfterResets s1 rs

/-- The session tokens of a page load: the one the mount effect issues, then
the one each `clearChat` issues. -/
def issuedTokens (now : Nat) (rand : String) (iso : String) (resets : List ResetInput) :
    List (Option String) :=
  let s := (mount now rand iso View.initial).2
  s.sessionId :: tokensAfterResets s resets

/-- Every assistant message after the first entry of the transcript comes
right after a user message. -/
def repliesFollowUser : List Message → Bool
  | a :: b :: rest =>
    (decide (b.role = Role.assistant → a.role = Role.user)) && repliesFollowUser (b :: rest)
  | _ => true

/-- The event is the mount effect. -/
def Event.isMount : Event → Bool
  | Event.mounted _ _ _ => true
  | _ => false

/-- Whether the event, taken in the page `w`, replaces the transcript by the
welcome message: the mount effect, a `clearChat` that issues no DELETE, and
the settlement of an outstanding DELETE. -/
def replacesTranscript (w : World) : Event → Bool
  | Event.mounted _ _ _ => true
  | Event.clearClicked _ _ _ =>
    match (clearChat_start w.view).1 with
    | Except.ok none => true
    | _ => false
  | Event.deleteSettled i _ _ _ _ => decide (i < w.deletes.length)
  | _ => false

/-- One send of the conversation: its number in the order of sends, the POST
it issued, the user message of the trimmed draft that was sent, and the reply
to that POST once it has settled. -/
structure Exchange where
  id : Nat
  request : PostRequest
  sent : Message
  reply : Option Message

/-- The messages of one exchange: the user message, then its reply if it has
one. -/
def Exchange.messages (x : Exchange) : List Message :=
  match x.reply with
  | some r => [x.sent, r]
  | none => [x.sent]

/-- The messages of a list of exchanges, exchange after exchange. -/
def rendered : List Exchange → List Message
  | [] => []
  | x :: xs => x.messages ++ rendered xs

/-- The assistant message that belongs to the settlement of a POST: the reply
of the server, or the apology when the POST failed. -/
def replyOf (settled : Except RequestError AxiosResponse) (iso : String) : Message :=
  match settled with
  | Except.ok response => assistantMessage response
  | Except.error _ => errorMessage iso

/-- A record of the conversation kept beside the page: the timestamp of the
welcome message that last replaced the transcript (`none` before the first
replacement), whether that replacement found no POST outstanding, the sends
accepted since then in the order they were made, the numbers of the sends
whose POST is outstanding (in the order of `World.posts`), and the number of
sends accepted so far. -/
structure Ledger where
  welcome : Option String
  clean : Bool
  exchanges : List Exchange
  outstanding : List Nat
  sends : Nat

/-- The record before the first event. -/
def Ledger.initial : Ledger :=
  { welcome := none, clean := false, exchanges := [], outstanding := [], sends := 0 }

/-- The record after the transcript was replaced by a welcome message, in the
page `w`. -/
def Ledger.restart (L : Ledger) (w : World) (iso : String) : Ledger :=
  { L with welcome := some iso, clean := w.posts.isEmpty, exchanges := [] }

/-- The record after one event taken in the page `w`: an accepted send opens
an exchange with the next number, the settlement of the `i`-th outstanding
POST gives its reply to the exchange with the number of that POST, and a
replacement of the transcript starts the record again. -/
def record (w : World) (L : Ledger) : Event → Ledger
  | Event.mounted now rand iso =>
    if replacesTranscript w (Event.mounted now rand iso) then L.restart w iso else L
  | Event.changed _ => L
  | Event.submitted iso =>
    match (sendMessage_start iso w.view).1 with
    | Except.ok (some request) =>
      { L with
        exchanges := L.exchanges ++
          [{ id := L.sends, request := request,
             sent := { role := Role.user, content := jsTrim w.view.input, timestamp := iso,
                       escalation_needed := none, error := none },
             reply := none }],
        outstanding := L.outstanding ++ [L.sends],
        sends := L.sends + 1 }
    | _ => L
  | Event.postSettled i settled iso =>
    match L.outstanding[i]? with
    | some id =>
      { L with
        exchanges := L.exchanges.map
          (fun x => if x.id = id then { x with reply := some (replyOf settled iso) } else x),
        outstanding := L.outstanding.eraseIdx i }
    | none => L
  | Event.clearClicked now rand iso =>
    if replacesTranscript w (Event.clearClicked now rand iso) then L.restart w iso else L
  | Event.deleteSettled i settled now rand iso =>
    if replacesTranscript w (Event.deleteSettled i settled now rand iso) then L.restart w iso
    else L

/-- The record after a sequence of events, starting from the page `w` with
the record `L`. -/
def recordAll (w : World) (L : Ledger) : List Event → Ledger
  | [] => L
  | e :: es => recordAll (step w e) (record w L e) es

/-- The transcript of the page is in send order with respect to the record:
it is the welcome message followed by the recorded exchanges, whose numbers
increase; each recorded user message has role `user` and the text its POST
carries, each recorded reply has role `assistant`; and either no POST is
outstanding and every exchange has its reply, or the last exchange alone is
without reply and its POST is the one outstanding. -/
def InSendOrder (w : World) (L : Ledger) : Prop :=
  (∃ iso, L.welcome = some iso ∧
    w.view.messages = welcomeMessage iso :: rendered L.exchanges) ∧
  List.Pairwise (fun x y => x.id < y.id) L.exchanges ∧
  (∀ x ∈ L.exchanges, x.sent.role = Role.user ∧ x.sent.content = x.request.body.query ∧
    ∀ r, x.reply = some r → r.role = Role.assistant) ∧
  ((w.posts = [] ∧ L.outstanding = [] ∧ ∀ x ∈ L.exchanges, x.reply.isSome = true) ∨
   (∃ init x, L.exchanges = init ++ [x] ∧ x.reply = none ∧ L.outstanding = [x.id] ∧
     w.posts = [x.request] ∧ ∀ y ∈ init, y.reply.isSome = true))

/-- What ties the record to the page in every reachable state: one recorded
number per outstanding POST, at most one POST outstanding and the busy flag
set exactly then, every recorded number below the count of sends, and the
transcript in send order whenever the last replacement found no POST
outstanding. -/
def Tracks (w : World) (L : Ledger) : Prop :=
  L.outstanding.length = w.posts.length ∧
  w.posts.length ≤ 1 ∧ (w.view.loading = true ↔ w.posts.length = 1) ∧
  (∀ x ∈ L.exchanges, x.id < L.sends) ∧
  (L.clean = true → InSendOrder w L)


/-! ## Equations of the handlers -/

theorem truthy_iff_ne_empty (s : String) : truthy s = true ↔ s ≠ "" := by
  cases s with
  | mk data =>
    cases data with
    | nil => simp [truthy]
    | cons c cs =>
      simp only [truthy, List.isEmpty_cons, Bool.not_false, ne_eq, true_iff]
      intro h
      have := congrArg String.data h
      simp at this

theorem trimChars_eq_nil_of_forall (l : List Char)
    (h : ∀ c ∈ l, isWhiteSpace c = true) : trimChars l = [] := by
  have h1 : l.dropWhile isWhiteSpace = [] := List.dropWhile_eq_nil_iff.mpr h
  simp [trimChars, h1]

theorem head?_dropWhile_false (p : Char → Bool) (l : List Char) (c : Char)
    (h : (l.dropWhile p).head? = some c) : p c = false := by
  induction l with
  | nil => simp at h
  | cons a t ih =>
    by_cases ha : p a = true
    · rw [List.dropWhile_cons_of_pos ha] at h
      exact ih h
    · rw [List.dropWhile_cons_of_neg ha] at h
      simp at h
      subst h
      simpa using ha

theorem trimChars_decomposition (l : List Char) :
    ∃ pre post, l = pre ++ trimChars l ++ post ∧
      (∀ c ∈ pre, isWhiteSpace c = true) ∧ (∀ c ∈ post, isWhiteSpace c = true) ∧
      (∀ c, (trimChars l).head? = some c → isWhiteSpace c = false) ∧
      (∀ c, (trimChars l).getLast? = some c → isWhiteSpace c = false) := by
  refine ⟨l.takeWhile isWhiteSpace,
    ((l.dropWhile isWhiteSpace).reverse.takeWhile isWhiteSpace).reverse, ?_, ?_, ?_, ?_, ?_⟩
  · have h1 := List.takeWhile_append_dropWhile isWhiteSpace l
    have h2 := List.takeWhile_append_dropWhile isWhiteSpace (l.dropWhile isWhiteSpace).reverse
    have h3 := congrArg List.reverse h2
    rw [List.reverse_append, List.reverse_reverse] at h3
    rw [List.append_assoc]
    unfold trimChars
    rw [h3, h1]
  · intro c hc
    exact (List.mem_takeWhile_imp hc)
  · intro c hc
    rw [List.mem_reverse] at hc
    exact (List.mem_takeWhile_imp hc)
  · intro c hc
    unfold trimChars at hc
    have h2 := List.takeWhile_append_dropWhile isWhiteSpace (l.dropWhile isWhiteSpace).reverse
    have h3 := congrArg List.reverse h2
    rw [List.reverse_append, List.reverse_reverse] at h3
    apply head?_dropWhile_false isWhiteSpace l c
    rw [← h3]
    cases hd : ((l.dropWhile isWhiteSpace).reverse.dropWhile isWhiteSpace).reverse with
    | nil => rw [hd] at hc; simp at hc
    | cons a t => rw [hd] at hc; simpa using hc
  · intro c hc
    unfold trimChars at hc
    rw [List.getLast?_reverse] at hc
    exact head?_dropWhile_false isWhiteSpace _ c hc

theorem mount_eq (now : Nat) (rand iso : String) (s : View) :
    mount now rand iso s =
      (Except.ok (), { s with sessionId := some (newSessionId now rand),
                              messages := [welcomeMessage iso] }) := rfl

theorem sendMessage_start_accept (iso : String) (s : View)
    (h : (!(truthy (jsTrim s.input)) || s.loading) = false) :
    sendMessage_start iso s =
      (Except.ok (some { url := API_BASE_URL ++ "/query",
                         body := { query := jsTrim s.input, session_id := s.sessionId } }),
       { messages := s.messages ++ [userMessage s.input iso], input := "",
         loading := true, sessionId := s.sessionId }) := by
  simp [sendMessage_start, h, bind, Eff.bind, getView, pure, Eff.pure, setMessages,
    setInput, setLoading, userMessage]

theorem sendMessage_start_reject (iso : String) (s : View)
    (h : (!(truthy (jsTrim s.input)) || s.loading) = true) :
    sendMessage_start iso s = (Except.ok none, s) := by
  simp [sendMessage_start, h, bind, Eff.bind, getView, pure, Eff.pure]

theorem sendMessage_settle_ok (response : AxiosResponse) (iso : String) (s : View) :
    sendMessage_settle (Except.ok response) iso s =
      (Except.ok (), { s with messages := s.messages ++ [assistantMessage response],
                              loading := false }) := rfl

theorem sendMessage_settle_error (e : RequestError) (iso : String) (s : View) :
    sendMessage_settle (Except.error e) iso s =
      (Except.ok (), { s with messages := s.messages ++ [errorMessage iso],
                              loading := false }) := rfl

theorem clearChat_start_state (s : View) : ∃ r, clearChat_start s = (Except.ok r, s) := by
  unfold clearChat_start
  cases hs : s.sessionId with
  | none => exact ⟨none, by simp [bind, Eff.bind, getView, hs, pure, Eff.pure]⟩
  | some t =>
    by_cases ht : truthy t = true
    · exact ⟨_, by simp [bind, Eff.bind, getView, hs, ht, pure, Eff.pure]; rfl⟩
    · exact ⟨none, by simp [bind, Eff.bind, getView, hs, ht, pure, Eff.pure]⟩

theorem clearChat_reset_eq (now : Nat) (rand iso : String) (s : View) :
    clearChat_reset now rand iso s =
      (Except.ok (), { s with sessionId := some (newSessionId now rand),
                              messages := [welcomeMessage iso] }) := rfl

theorem clearChat_settle_eq (settled : Except RequestError Unit) (now : Nat)
    (rand iso : String) (s : View) :
    clearChat_settle settled now rand iso s =
      (Except.ok (), { s with sessionId := some (newSessionId now rand),
                              messages := [welcomeMessage iso] }) := by
  cases settled <;> rfl

theorem clearChat_eq (settled : Except RequestError Unit) (now : Nat)
    (rand iso : String) (s : View) :
    clearChat settled now rand iso s =
      (Except.ok (), { s with sessionId := some (newSessionId now rand),
                              messages := [welcomeMessage iso] }) := by
  obtain ⟨r, hr⟩ := clearChat_start_state s
  cases r with
  | none => simp [clearChat, bind, Eff.bind, hr, clearChat_reset_eq]
  | some d => simp [clearChat, bind, Eff.bind, hr, clearChat_settle_eq]

theorem guard_accepts (s : View) (hidle : s.loading = false) (hdraft : jsTrim s.input ≠ "") :
    (!(truthy (jsTrim s.input)) || s.loading) = false := by
  simp [hidle, (truthy_iff_ne_empty _).mpr hdraft]

theorem guard_rejects (s : View)
    (h : (∀ c ∈ s.input.data, isWhiteSpace c = true) ∨ s.loading = true) :
    (!(truthy (jsTrim s.input)) || s.loading) = true := by
  rcases h with h | h
  · simp [truthy, jsTrim, trimChars_eq_nil_of_forall _ h]
  · simp [h]

/-! ## The claims -/

/-- C1: for a state that is not busy and a draft whose trimmed text is
non-empty, `sendMessage` issues its request and leaves the transcript extended
by exactly one message, of role `user`; and whenever that request settles, on
success and on failure alike, the rest of `sendMessage` completes and leaves
the transcript of that moment extended by exactly one message, of role
`assistant`. -/
theorem sendMessage_appends_user_then_assistant (s : View) (iso : String)
    (hidle : s.loading = false) (hdraft : jsTrim s.input ≠ "") :
    (∃ request, (sendMessage_start iso s).1 = Except.ok (some request)) ∧
    (∃ u, (sendMessage_start iso s).2.messages = s.messages ++ [u] ∧ u.role = Role.user) ∧
    (sendMessage_start iso s).2.messages.length = s.messages.length + 1 ∧
    ∀ (t : View) (settled : Except RequestError AxiosResponse) (iso2 : String),
      (sendMessage_settle settled iso2 t).1 = Except.ok () ∧
      (∃ a, (sendMessage_settle settled iso2 t).2.messages = t.messages ++ [a] ∧
        a.role = Role.assistant) ∧
      (sendMessage_settle settled iso2 t).2.messages.length = t.messages.length + 1 := by
  rw [sendMessage_start_accept iso s (guard_accepts s hidle hdraft)]
  refine ⟨⟨_, rfl⟩, ⟨_, rfl, rfl⟩, by simp, ?_⟩
  intro t settled iso2
  cases settled with
  | ok response =>
    rw [sendMessage_settle_ok]
    exact ⟨rfl, ⟨_, rfl, rfl⟩, by simp⟩
  | error e =>
    rw [sendMessage_settle_error]
    exact ⟨rfl, ⟨_, rfl, rfl⟩, by simp⟩

/-- Witness for C1: the mounted state with the draft " hi ". -/
theorem sendMessage_appends_user_then_assistant_witness :
    (∃ request, (sendMessage_start "T1"
        { messages := [welcomeMessage "T0"], input := " hi ", loading := false,
          sessionId := some "session_1_a" }).1 = Except.ok (some request)) :=
  (sendMessage_appends_user_then_assistant
    { messages := [welcomeMessage "T0"], input := " hi ", loading := false,
      sessionId := some "session_1_a" } "T1" rfl (by decide)).1

/-- C2: when the draft is empty or all white space, or the busy flag is set,
`sendMessage` returns at its guard: it issues no request and leaves the
transcript, the draft, the busy flag and the session token as they were, so
that a submit leaves the whole page, outstanding requests included,
unchanged. -/
theorem sendMessage_rejected_is_noop (w : World) (iso : String)
    (h : (∀ c ∈ w.view.input.data, isWhiteSpace c = true) ∨ w.view.loading = true) :
    sendMessage_start iso w.view = (Except.ok none, w.view) ∧
    step w (Event.submitted iso) = w := by
  have hs := sendMessage_start_reject iso w.view (guard_rejects w.view h)
  refine ⟨hs, ?_⟩
  simp [step, hs]

/-- Witness for C2: a busy page with a non-empty draft. -/
theorem sendMessage_rejected_is_noop_witness :
    step { view := { messages := [welcomeMessage "T0"], input := "again", loading := true,
                     sessionId := some "session_1_a" },
           posts := [{ url := "u", body := { query := "hi", session_id := none } }],
           deletes := [] } (Event.submitted "T1") =
      { view := { messages := [welcomeMessage "T0"], input := "again", loading := true,
                  sessionId := some "session_1_a" },
        posts := [{ url := "u", body := { query := "hi", session_id := none } }],
        deletes := [] } :=
  (sendMessage_rejected_is_noop
    { view := { messages := [welcomeMessage "T0"], input := "again", loading := true,
                sessionId := some "session_1_a" },
      posts := [{ url := "u", body := { query := "hi", session_id := none } }],
      deletes := [] } "T1" (Or.inr rfl)).2

/-- C3: from every state and for both outcomes of the DELETE, `clearChat`
completes and leaves a transcript of exactly one message, whose role is
`assistant` and whose content is the welcome text, the role and content of the
single message the mount effect leaves; the same holds in whatever state the
page is when the DELETE settles. -/
theorem clearChat_leaves_single_welcome (s t : View) (settled : Except RequestError Unit)
    (now : Nat) (rand iso : String) (now0 : Nat) (rand0 iso0 : String) :
    (clearChat settled now rand iso s).1 = Except.ok () ∧
    (clearChat settled now rand iso s).2.messages = [welcomeMessage iso] ∧
    (clearChat settled now rand iso s).2.messages.length = 1 ∧
    (clearChat_settle settled now rand iso t).2.messages = [welcomeMessage iso] ∧
    (welcomeMessage iso).role = Role.assistant ∧
    (welcomeMessage iso).content =
      "Hello! I'm your AI customer support assistant. How can I help you today?" ∧
    (mount now0 rand0 iso0 t).2.messages = [welcomeMessage iso0] ∧
    (welcomeMessage iso).role = (welcomeMessage iso0).role ∧
    (welcomeMessage iso).content = (welcomeMessage iso0).content := by
  rw [clearChat_eq, clearChat_settle_eq, mount_eq]
  exact ⟨rfl, rfl, rfl, rfl, rfl, rfl, rfl, rfl, rfl⟩

/-- C4: when the request of a send fails, with whatever error, the rest of
`sendMessage` completes without throwing and appends one message with role
`assistant`, error flag `true`, no escalation flag and the fixed apology text;
the resulting state does not depend on the error. -/
theorem sendMessage_failure_appends_apology (s : View) (e e2 : RequestError) (iso : String) :
    (sendMessage_settle (Except.error e) iso s).1 = Except.ok () ∧
    (sendMessage_settle (Except.error e) iso s).2.messages = s.messages ++ [errorMessage iso] ∧
    (errorMessage iso).role = Role.assistant ∧
    (errorMessage iso).error = some true ∧
    (errorMessage iso).escalation_needed = none ∧
    (errorMessage iso).content =
      "I apologize, but I'm having trouble processing your request right now. Please try again or contact our support team directly." ∧
    sendMessage_settle (Except.error e) iso s = sendMessage_settle (Except.error e2) iso s := by
  rw [sendMessage_settle_error, sendMessage_settle_error]
  exact ⟨rfl, rfl, rfl, rfl, rfl, rfl, rfl⟩

/-- C5: when the request of a send succeeds, the rest of `sendMessage` appends
one message with role `assistant`, the content, timestamp and escalation flag
of the reply (no flag when the reply has none) and no error flag; and from the
mounted state, sending "track my order" with the reply "Here's how..." at "T1"
leaves the transcript welcome, user "track my order", assistant
"Here's how..." with no escalation flag. -/
theorem sendMessage_success_appends_reply (s : View) (response : AxiosResponse)
    (iso : String) (now : Nat) (rand iso0 iso1 : String) :
    (sendMessage_settle (Except.ok response) iso s).2.messages =
      s.messages ++ [{ role := Role.assistant, content := response.data.response,
                       timestamp := response.data.timestamp,
                       escalation_needed := response.data.escalation_needed,
                       error := none }] ∧
    (run World.initial
      [Event.mounted now rand iso0, Event.changed "track my order", Event.submitted iso1,
       Event.postSettled 0
         (Except.ok { status := 200,
                      data := { response := "Here's how...", timestamp := "T1",
                                escalation_needed := none } }) iso]).view.messages =
      [welcomeMessage iso0,
       { role := Role.user, content := "track my order", timestamp := iso1,
         escalation_needed := none, error := none },
       { role := Role.assistant, content := "Here's how...", timestamp := "T1",
         escalation_needed := none, error := none }] := by
  refine ⟨rfl, ?_⟩
  have ht : jsTrim "track my order" = "track my order" := by decide
  have hs := sendMessage_start_accept iso1
    { messages := [welcomeMessage iso0], input := "track my order", loading := false,
      sessionId := some (newSessionId now rand) }
    (by show (!(truthy (jsTrim "track my order")) || false) = false; decide)
  simp [run, step, mount_eq, setInput, World.initial, View.initial, hs,
    sendMessage_settle_ok, userMessage, ht, assistantMessage]

/-- C10: an accepted send issues exactly one request, a POST to `/query` whose
body holds the trimmed draft and the session token of that moment; the user
message it appends holds the same trimmed draft; the draft becomes the empty
string and the session token stays; and the trimmed draft is the draft without
a leading and a trailing run of white space, neither starting nor ending with
white space. -/
theorem sendMessage_accepted_request (w : World) (iso : String)
    (hidle : w.view.loading = false) (hdraft : jsTrim w.view.input ≠ "") :
    (sendMessage_start iso w.view).1 =
      Except.ok (some { url := "http://localhost:8888/query",
                        body := { query := jsTrim w.view.input,
                                  session_id := w.view.sessionId } }) ∧
    (step w (Event.submitted iso)).posts =
      w.posts ++ [{ url := "http://localhost:8888/query",
                    body := { query := jsTrim w.view.input,
                              session_id := w.view.sessionId } }] ∧
    (step w (Event.submitted iso)).view = (sendMessage_start iso w.view).2 ∧
    (∃ u, (sendMessage_start iso w.view).2.messages = w.view.messages ++ [u] ∧
      u.role = Role.user ∧ u.content = jsTrim w.view.input) ∧
    (sendMessage_start iso w.view).2.input = "" ∧
    (sendMessage_start iso w.view).2.sessionId = w.view.sessionId ∧
    ∃ pre post, w.view.input.data = pre ++ (jsTrim w.view.input).data ++ post ∧
      (∀ c ∈ pre, isWhiteSpace c = true) ∧ (∀ c ∈ post, isWhiteSpace c = true) ∧
      (∀ c, (jsTrim w.view.input).data.head? = some c → isWhiteSpace c = false) ∧
      (∀ c, (jsTrim w.view.input).data.getLast? = some c → isWhiteSpace c = false) := by
  have hs := sendMessage_start_accept iso w.view (guard_accepts w.view hidle hdraft)
  have hurl : API_BASE_URL ++ "/query" = "http://localhost:8888/query" := by decide
  rw [hurl] at hs
  refine ⟨by rw [hs], by simp [step, hs], by simp [step, hs], ?_, by rw [hs], by rw [hs], ?_⟩
  · rw [hs]
    exact ⟨_, rfl, rfl, rfl⟩
  · exact trimChars_decomposition w.view.input.data

/-- Witness for C10: the mounted page with the draft " hi ". -/
theorem sendMessage_accepted_request_witness :
    (sendMessage_start "T1"
      { messages := [welcomeMessage "T0"], input := " hi ", loading := false,
        sessionId := some "session_1_a" }).1 =
      Except.ok (some { url := "http://localhost:8888/query",
                        body := { query := jsTrim " hi ",
                                  session_id := some "session_1_a" } }) :=
  (sendMessage_accepted_request
    { view := { messages := [welcomeMessage "T0"], input := " hi ", loading := false,
                sessionId := some "session_1_a" }, posts := [], deletes := [] }
    "T1" rfl (by decide)).1

/-! ## Session tokens -/

theorem digitChar_value (d : Nat) (h : d < 10) :
    (Nat.digitChar d).toNat - 48 = d ∧ Nat.digitChar d ≠ '_' := by
  interval_cases d <;> exact ⟨by decide, by decide⟩

theorem toDigitsCore_spec : ∀ (fuel n : Nat) (acc : List Char), n < fuel →
    ∃ D, Nat.toDigitsCore 10 fuel n acc = D ++ acc ∧
      D.foldl (fun a c => 10 * a + (c.toNat - 48)) 0 = n ∧ ∀ c ∈ D, c ≠ '_' := by
  intro fuel
  induction fuel with
  | zero => intro n acc h; omega
  | succ fuel ih =>
    intro n acc h
    have hd := digitChar_value (n % 10) (Nat.mod_lt _ (by decide))
    by_cases h0 : n / 10 = 0
    · refine ⟨[Nat.digitChar (n % 10)], ?_, ?_, ?_⟩
      · simp [Nat.toDigitsCore, h0]
      · simp only [List.foldl_cons, List.foldl_nil, hd.1]
        omega
      · intro c hc
        simp only [List.mem_singleton] at hc
        rw [hc]
        exact hd.2
    · obtain ⟨D, hD, hval, hne⟩ := ih (n / 10) (Nat.digitChar (n % 10) :: acc) (by omega)
      refine ⟨D ++ [Nat.digitChar (n % 10)], ?_, ?_, ?_⟩
      · simp [Nat.toDigitsCore, h0, hD]
      · simp only [List.foldl_append, List.foldl_cons, List.foldl_nil, hval, hd.1]
        omega
      · intro c hc
        rcases List.mem_append.mp hc with hc | hc
        · exact hne c hc
        · simp only [List.mem_singleton] at hc
          rw [hc]
          exact hd.2

theorem append_separator_inj {α : Type} (sep : α) :
    ∀ (a c b d : List α), sep ∉ a → sep ∉ c → a ++ sep :: b = c ++ sep :: d → a = c ∧ b = d := by
  intro a
  induction a with
  | nil =>
    intro c b d _ hc h
    cases c with
    | nil => simpa using h
    | cons x c =>
      simp only [List.nil_append, List.cons_append, List.cons.injEq] at h
      exact absurd (h.1 ▸ List.mem_cons_self _ _) hc
  | cons x a ih =>
    intro c b d ha hc h
    cases c with
    | nil =>
      simp only [List.nil_append, List.cons_append, List.cons.injEq] at h
      exact absurd (h.1 ▸ List.mem_cons_self _ _) ha
    | cons y c =>
      simp only [List.cons_append, List.cons.injEq] at h
      have := ih c b d (fun hm => ha (List.mem_cons_of_mem _ hm))
        (fun hm => hc (List.mem_cons_of_mem _ hm)) h.2
      exact ⟨by rw [h.1, this.1], this.2⟩

theorem newSessionId_injective (now1 now2 : Nat) (rand1 rand2 : String)
    (h : newSessionId now1 rand1 = newSessionId now2 rand2) : now1 = now2 ∧ rand1 = rand2 := by
  obtain ⟨D1, hD1, hv1, hn1⟩ := toDigitsCore_spec (now1 + 1) now1 [] (by omega)
  obtain ⟨D2, hD2, hv2, hn2⟩ := toDigitsCore_spec (now2 + 1) now2 [] (by omega)
  have e1 : (toString now1).data = D1 := by
    show (Nat.toDigits 10 now1) = D1
    simpa [Nat.toDigits] using hD1
  have e2 : (toString now2).data = D2 := by
    show (Nat.toDigits 10 now2) = D2
    simpa [Nat.toDigits] using hD2
  have hdata := congrArg String.data h
  simp only [newSessionId, String.data_append, e1, e2, List.append_assoc] at hdata
  have h2 := List.append_cancel_left hdata
  have h3 := append_separator_inj '_' D1 D2 rand1.data rand2.data
    (fun hm => hn1 _ hm rfl) (fun hm => hn2 _ hm rfl) (by simpa using h2)
  refine ⟨?_, String.ext h3.2⟩
  rw [← hv1, ← hv2, h3.1]

theorem tokensAfterResets_eq (resets : List ResetInput) : ∀ s : View,
    tokensAfterResets s resets = resets.map (fun r => some (newSessionId r.now r.rand)) := by
  induction resets with
  | nil => intro s; rfl
  | cons r rs ih =>
    intro s
    simp [tokensAfterResets, clearChat_eq, ih]

theorem issuedTokens_eq (now : Nat) (rand iso : String) (resets : List ResetInput) :
    issuedTokens now rand iso resets =
      ((now, rand) :: resets.map (fun r => (r.now, r.rand))).map
        (fun p => some (newSessionId p.1 p.2)) := by
  simp [issuedTokens, mount_eq, tokensAfterResets_eq, Function.comp_def]

/-- C6, as stated, fails: a reset that reads the same clock value and draws
the same random suffix as the mount issues the token the mount issued. -/
theorem issuedTokens_reused :
    issuedTokens 0 "a" "T0" [{ settled := Except.ok (), now := 0, rand := "a", iso := "T1" }] =
      [some "session_0_a", some "session_0_a"] ∧
    ¬ (issuedTokens 0 "a" "T0"
        [{ settled := Except.ok (), now := 0, rand := "a", iso := "T1" }]).Nodup := by
  have h : issuedTokens 0 "a" "T0"
      [{ settled := Except.ok (), now := 0, rand := "a", iso := "T1" }] =
      [some "session_0_a", some "session_0_a"] := by
    rw [issuedTokens_eq]
    decide
  rw [h]
  exact ⟨rfl, by decide⟩

/-- C6, amended: mount and every `clearChat` issue the token
`session_<clock>_<suffix>` of the clock reading and random suffix they take;
when those (clock, suffix) pairs are pairwise different over the mount and
the resets of a page load, so are the tokens: the token after each reset
differs from the token before it and from every token issued earlier. -/
theorem issuedTokens_nodup (now : Nat) (rand iso : String) (resets : List ResetInput)
    (h : ((now, rand) :: resets.map (fun r => (r.now, r.rand))).Nodup) :
    issuedTokens now rand iso resets =
      some (newSessionId now rand) ::
        resets.map (fun r => some (newSessionId r.now r.rand)) ∧
    (issuedTokens now rand iso resets).Nodup := by
  refine ⟨by simp [issuedTokens_eq, Function.comp_def], ?_⟩
  rw [issuedTokens_eq]
  refine List.Nodup.map ?_ h
  intro p q hpq
  have := newSessionId_injective p.1 q.1 p.2 q.2 (Option.some.inj hpq)
  exact Prod.ext this.1 this.2

/-- Witness for C6 amended: a page load with two resets. -/
theorem issuedTokens_nodup_witness :
    (issuedTokens 5 "a" "T0"
      [{ settled := Except.ok (), now := 5, rand := "b", iso := "T1" },
       { settled := Except.error RequestError.timeout, now := 6, rand := "b", iso := "T2" }]).Nodup :=
  (issuedTokens_nodup 5 "a" "T0"
    [{ settled := Except.ok (), now := 5, rand := "b", iso := "T1" },
     { settled := Except.error RequestError.timeout, now := 6, rand := "b", iso := "T2" }]
    (by decide)).2

/-! ## Invariants of the event loop -/

theorem step_messages (w : World) (e : Event) :
    (step w e).view.messages = w.view.messages ∨
    (∃ m, (step w e).view.messages = w.view.messages ++ [m]) ∨
    (∃ iso, (step w e).view.messages = [welcomeMessage iso]) := by
  cases e with
  | mounted now rand iso => exact Or.inr (Or.inr ⟨iso, by simp [step, mount_eq]⟩)
  | changed value => exact Or.inl (by simp [step, setInput])
  | submitted iso =>
    cases hg : (!(truthy (jsTrim w.view.input)) || w.view.loading) with
    | false =>
      exact Or.inr (Or.inl ⟨_, by simp [step, sendMessage_start_accept iso w.view hg]; rfl⟩)
    | true => exact Or.inl (by simp [step, sendMessage_start_reject iso w.view hg])
  | postSettled i settled iso =>
    by_cases hi : i < w.posts.length
    · cases settled with
      | ok response =>
        exact Or.inr (Or.inl ⟨_, by simp [step, hi, sendMessage_settle_ok]; rfl⟩)
      | error err =>
        exact Or.inr (Or.inl ⟨_, by simp [step, hi, sendMessage_settle_error]; rfl⟩)
    · exact Or.inl (by simp [step, hi])
  | clearClicked now rand iso =>
    obtain ⟨r, hr⟩ := clearChat_start_state w.view
    cases r with
    | none => exact Or.inr (Or.inr ⟨iso, by simp [step, hr, clearChat_reset_eq]⟩)
    | some d => exact Or.inl (by simp [step, hr])
  | deleteSettled i settled now rand iso =>
    by_cases hi : i < w.deletes.length
    · exact Or.inr (Or.inr ⟨iso, by simp [step, hi, clearChat_settle_eq]⟩)
    · exact Or.inl (by simp [step, hi])

theorem step_keeps_welcome_first (w : World) (e : Event)
    (h : ∃ iso rest, w.view.messages = welcomeMessage iso :: rest) :
    ∃ iso rest, (step w e).view.messages = welcomeMessage iso :: rest := by
  obtain ⟨iso, rest, hw⟩ := h
  rcases step_messages w e with h1 | ⟨m, h1⟩ | ⟨iso1, h1⟩
  · exact ⟨iso, rest, by rw [h1, hw]⟩
  · exact ⟨iso, rest ++ [m], by rw [h1, hw]; rfl⟩
  · exact ⟨iso1, [], h1⟩

theorem step_mount_welcome_first (w : World) (e : Event) (h : e.isMount = true) :
    ∃ iso rest, (step w e).view.messages = welcomeMessage iso :: rest := by
  cases e with
  | mounted now rand iso => exact ⟨iso, [], by simp [step, mount_eq]⟩
  | changed value => simp [Event.isMount] at h
  | submitted iso => simp [Event.isMount] at h
  | postSettled i settled iso => simp [Event.isMount] at h
  | clearClicked now rand iso => simp [Event.isMount] at h
  | deleteSettled i settled now rand iso => simp [Event.isMount] at h

theorem run_welcome_first (events : List Event) : ∀ w : World,
    ((∃ iso rest, w.view.messages = welcomeMessage iso :: rest) ∨
      ∃ e ∈ events, e.isMount = true) →
    ∃ iso rest, (run w events).view.messages = welcomeMessage iso :: rest := by
  induction events with
  | nil =>
    intro w h
    rcases h with h | ⟨e, he, _⟩
    · exact h
    · simp at he
  | cons e es ih =>
    intro w h
    show ∃ iso rest, (run (step w e) es).view.messages = welcomeMessage iso :: rest
    rcases h with h | ⟨e1, he1, hm⟩
    · exact ih _ (Or.inl (step_keeps_welcome_first w e h))
    · rcases List.mem_cons.mp he1 with heq | hmem
      · subst heq
        exact ih _ (Or.inl (step_mount_welcome_first w e1 hm))
      · exact ih _ (Or.inr ⟨e1, hmem, hm⟩)

theorem step_loading_posts (w : World) (e : Event) :
    ((step w e).view.loading = w.view.loading ∧ (step w e).posts = w.posts) ∨
    (w.view.loading = false ∧ (step w e).view.loading = true ∧
      ∃ r, (step w e).posts = w.posts ++ [r]) ∨
    ((step w e).view.loading = false ∧ ∃ i, i < w.posts.length ∧
      (step w e).posts = w.posts.eraseIdx i) := by
  cases e with
  | mounted now rand iso => exact Or.inl (by simp [step, mount_eq])
  | changed value => exact Or.inl (by simp [step, setInput])
  | submitted iso =>
    cases hg : (!(truthy (jsTrim w.view.input)) || w.view.loading) with
    | false =>
      have hl : w.view.loading = false := by
        cases hl : w.view.loading with
        | false => rfl
        | true => simp [hl] at hg
      exact Or.inr (Or.inl ⟨hl, by simp [step, sendMessage_start_accept iso w.view hg],
        _, by simp [step, sendMessage_start_accept iso w.view hg]; rfl⟩)
    | true => exact Or.inl (by simp [step, sendMessage_start_reject iso w.view hg])
  | postSettled i settled iso =>
    by_cases hi : i < w.posts.length
    · cases settled with
      | ok response =>
        exact Or.inr (Or.inr ⟨by simp [step, hi, sendMessage_settle_ok], i, hi,
          by simp [step, hi]⟩)
      | error err =>
        exact Or.inr (Or.inr ⟨by simp [step, hi, sendMessage_settle_error], i, hi,
          by simp [step, hi]⟩)
    · exact Or.inl (by simp [step, hi])
  | clearClicked now rand iso =>
    obtain ⟨r, hr⟩ := clearChat_start_state w.view
    cases r with
    | none => exact Or.inl (by simp [step, hr, clearChat_reset_eq])
    | some d => exact Or.inl (by simp [step, hr])
  | deleteSettled i settled now rand iso =>
    by_cases hi : i < w.deletes.length
    · exact Or.inl (by simp [step, hi, clearChat_settle_eq])
    · exact Or.inl (by simp [step, hi])

theorem step_single_flight (w : World) (e : Event)
    (h : w.posts.length ≤ 1 ∧ (w.view.loading = true ↔ w.posts.length = 1)) :
    (step w e).posts.length ≤ 1 ∧
      ((step w e).view.loading = true ↔ (step w e).posts.length = 1) := by
  obtain ⟨hle, hiff⟩ := h
  rcases step_loading_posts w e with ⟨h1, h2⟩ | ⟨h0, h1, r, h2⟩ | ⟨h1, i, hi, h2⟩
  · rw [h1, h2]
    exact ⟨hle, hiff⟩
  · have hlen : w.posts.length = 0 := by
      have : ¬ w.posts.length = 1 := fun hc => by
        have := hiff.mpr hc
        rw [h0] at this
        exact Bool.noConfusion this
      omega
    rw [h1, h2]
    simp [hlen]
  · have hlen : (w.posts.eraseIdx i).length = 0 := by
      rw [List.length_eraseIdx, if_pos hi]
      omega
    rw [h1, h2, hlen]
    simp

theorem run_single_flight (events : List Event) : ∀ w : World,
    (w.posts.length ≤ 1 ∧ (w.view.loading = true ↔ w.posts.length = 1)) →
    (run w events).posts.length ≤ 1 ∧
      ((run w events).view.loading = true ↔ (run w events).posts.length = 1) := by
  induction events with
  | nil => intro w h; exact h
  | cons e es ih => intro w h; exact ih _ (step_single_flight w e h)

theorem rendered_append (a b : List Exchange) :
    rendered (a ++ b) = rendered a ++ rendered b := by
  induction a with
  | nil => rfl
  | cons x xs ih => simp [rendered, ih]

theorem map_reply_of_ne (id : Nat) (r : Message) (l : List Exchange)
    (h : ∀ y ∈ l, y.id ≠ id) :
    l.map (fun x => if x.id = id then { x with reply := some r } else x) = l := by
  induction l with
  | nil => rfl
  | cons y ys ih =>
    have hy : y.id ≠ id := h y (List.mem_cons_self _ _)
    have hys := ih (fun z hz => h z (List.mem_cons_of_mem _ hz))
    simp only [List.map_cons, if_neg hy, hys]

theorem replyOf_role (settled : Except RequestError AxiosResponse) (iso : String) :
    (replyOf settled iso).role = Role.assistant := by
  cases settled <;> rfl

theorem sendMessage_settle_replyOf (settled : Except RequestError AxiosResponse)
    (iso : String) (s : View) :
    (sendMessage_settle settled iso s).2 =
      { s with messages := s.messages ++ [replyOf settled iso], loading := false } := by
  cases settled <;> rfl

theorem repliesFollowUser_rendered : ∀ (xs : List Exchange) (g : Message),
    (∀ x ∈ xs, x.sent.role = Role.user ∧ x.sent.content = x.request.body.query ∧
      ∀ r, x.reply = some r → r.role = Role.assistant) →
    repliesFollowUser (g :: rendered xs) = true
  | [], g, _ => by simp [rendered, repliesFollowUser]
  | x :: xs, g, h => by
    have hx := h x (List.mem_cons_self _ _)
    have hxs : ∀ y ∈ xs, y.sent.role = Role.user ∧ y.sent.content = y.request.body.query ∧
        ∀ r, y.reply = some r → r.role = Role.assistant :=
      fun y hy => h y (List.mem_cons_of_mem _ hy)
    cases hr : x.reply with
    | none =>
      have ih := repliesFollowUser_rendered xs x.sent hxs
      simp only [rendered, Exchange.messages, hr, List.cons_append, List.nil_append]
      simp [repliesFollowUser, hx.1, ih]
    | some r =>
      have ih := repliesFollowUser_rendered xs r hxs
      simp only [rendered, Exchange.messages, hr, List.cons_append, List.nil_append]
      simp [repliesFollowUser, hx.1, ih]

theorem reply_right_after_sent : ∀ (xs : List Exchange) (x : Exchange) (r : Message),
    x ∈ xs → x.reply = some r → ∃ before after, rendered xs = before ++ x.sent :: r :: after
  | [], x, r, hx, _ => by simp at hx
  | y :: ys, x, r, hx, hr => by
    rcases List.mem_cons.mp hx with heq | hmem
    · subst heq
      exact ⟨[], rendered ys, by simp [rendered, Exchange.messages, hr]⟩
    · obtain ⟨b, a, hba⟩ := reply_right_after_sent ys x r hmem hr
      exact ⟨y.messages ++ b, a, by simp [rendered, hba]⟩

theorem tracks_frame (w w1 : World) (L : Ledger) (h : Tracks w L)
    (hm : w1.view.messages = w.view.messages) (hl : w1.view.loading = w.view.loading)
    (hp : w1.posts = w.posts) : Tracks w1 L := by
  unfold Tracks InSendOrder at *
  rw [hm, hl, hp]
  exact h

theorem tracks_restart (w w1 : World) (L : Ledger) (iso : String) (h : Tracks w L)
    (hm : w1.view.messages = [welcomeMessage iso]) (hl : w1.view.loading = w.view.loading)
    (hp : w1.posts = w.posts) : Tracks w1 (L.restart w iso) := by
  obtain ⟨hlen, hle, hiff, _, _⟩ := h
  refine ⟨by rw [hp]; exact hlen, by rw [hp]; exact hle, by rw [hl, hp]; exact hiff, ?_, ?_⟩
  · intro x hx
    simp [Ledger.restart] at hx
  · intro hc
    have hnil : w.posts = [] := by simpa [Ledger.restart] using hc
    have hout : L.outstanding = [] := List.length_eq_zero.mp (by rw [hlen, hnil]; rfl)
    refine ⟨⟨iso, rfl, by rw [hm]; rfl⟩, List.Pairwise.nil, ?_,
      Or.inl ⟨by rw [hp, hnil], hout, ?_⟩⟩
    · intro x hx
      simp [Ledger.restart] at hx
    · intro x hx
      simp [Ledger.restart] at hx

theorem tracks_send (w : World) (L : Ledger) (iso : String) (h : Tracks w L)
    (hg : (!(truthy (jsTrim w.view.input)) || w.view.loading) = false) :
    Tracks (step w (Event.submitted iso)) (record w L (Event.submitted iso)) := by
  have hs := sendMessage_start_accept iso w.view hg
  obtain ⟨hlen, hle, hiff, hid, hord⟩ := h
  have hl : w.view.loading = false := by
    cases hl : w.view.loading with
    | false => rfl
    | true => simp [hl] at hg
  have hposts : w.posts = [] := by
    have : ¬ w.posts.length = 1 := fun hc => by
      have := hiff.mpr hc
      rw [hl] at this
      exact Bool.noConfusion this
    exact List.length_eq_zero.mp (by omega)
  have hout : L.outstanding = [] := List.length_eq_zero.mp (by rw [hlen, hposts]; rfl)
  have hw : step w (Event.submitted iso) =
      { w with
        view := { messages := w.view.messages ++ [userMessage w.view.input iso], input := "",
                  loading := true, sessionId := w.view.sessionId },
        posts := w.posts ++ [{ url := API_BASE_URL ++ "/query",
                               body := { query := jsTrim w.view.input,
                                         session_id := w.view.sessionId } }] } := by
    simp [step, hs]
  have hr : record w L (Event.submitted iso) =
      { L with
        exchanges := L.exchanges ++
          [{ id := L.sends,
             request := { url := API_BASE_URL ++ "/query",
                          body := { query := jsTrim w.view.input,
                                    session_id := w.view.sessionId } },
             sent := userMessage w.view.input iso, reply := none }],
        outstanding := L.outstanding ++ [L.sends],
        sends := L.sends + 1 } := by
    simp [record, hs, userMessage]
  rw [hw, hr]
  refine ⟨by simp [hlen], by simp [hposts], by simp [hposts], ?_, ?_⟩
  · intro x hx
    rcases List.mem_append.mp hx with hx | hx
    · exact Nat.lt_succ_of_lt (hid x hx)
    · simp only [List.mem_singleton] at hx
      subst hx
      exact Nat.lt_succ_self _
  · intro hc
    obtain ⟨⟨iso0, hwel, hmsg⟩, hpw, hroles, hshape⟩ := hord hc
    have hall : ∀ x ∈ L.exchanges, x.reply.isSome = true := by
      rcases hshape with ⟨_, _, hall⟩ | ⟨init, x, _, _, _, hp, _⟩
      · exact hall
      · rw [hposts] at hp
        exact List.noConfusion hp
    refine ⟨⟨iso0, hwel, ?_⟩, ?_, ?_, Or.inr ⟨L.exchanges, _, rfl, rfl, ?_, ?_, hall⟩⟩
    · show w.view.messages ++ [userMessage w.view.input iso] = _
      rw [hmsg, rendered_append]
      simp [rendered, Exchange.messages]
    · refine List.pairwise_append.mpr ⟨hpw, List.pairwise_singleton _ _, ?_⟩
      intro a ha b hb
      simp only [List.mem_singleton] at hb
      subst hb
      exact hid a ha
    · intro x hx
      rcases List.mem_append.mp hx with hx | hx
      · exact hroles x hx
      · simp only [List.mem_singleton] at hx
        subst hx
        exact ⟨rfl, rfl, fun r hr => Option.noConfusion hr⟩
    · simp [hout]
    · simp [hposts]

theorem tracks_settle (w : World) (L : Ledger) (i : Nat)
    (settled : Except RequestError AxiosResponse) (iso : String) (h : Tracks w L)
    (hi : i < w.posts.length) :
    Tracks (step w (Event.postSettled i settled iso))
      (record w L (Event.postSettled i settled iso)) := by
  obtain ⟨hlen, hle, hiff, hid, hord⟩ := h
  have hi0 : i = 0 := by omega
  subst hi0
  obtain ⟨req, hreq⟩ := List.length_eq_one.mp (show w.posts.length = 1 by omega)
  obtain ⟨id, hout⟩ := List.length_eq_one.mp (show L.outstanding.length = 1 by omega)
  have hw : step w (Event.postSettled 0 settled iso) =
      { w with
        view := { w.view with messages := w.view.messages ++ [replyOf settled iso],
                              loading := false },
        posts := [] } := by
    simp [step, hreq, sendMessage_settle_replyOf]
  have hr : record w L (Event.postSettled 0 settled iso) =
      { L with
        exchanges := L.exchanges.map
          (fun x => if x.id = id then { x with reply := some (replyOf settled iso) } else x),
        outstanding := [] } := by
    simp [record, hout]
  rw [hw, hr]
  refine ⟨rfl, by simp, by simp, ?_, ?_⟩
  · intro x hx
    obtain ⟨y, hy, hxy⟩ := List.mem_map.mp hx
    have hyid := hid y hy
    by_cases hc : y.id = id
    · rw [if_pos hc] at hxy
      rw [← hxy]
      exact hyid
    · rw [if_neg hc] at hxy
      rw [← hxy]
      exact hyid
  · intro hc
    obtain ⟨⟨iso0, hwel, hmsg⟩, hpw, hroles, hshape⟩ := hord hc
    rcases hshape with ⟨hp, _, _⟩ | ⟨init, x, hex, hxr, hxo, hxp, hinit⟩
    · rw [hreq] at hp
      exact List.noConfusion hp
    · have hidx : id = x.id := by
        rw [hout] at hxo
        exact List.head_eq_of_cons_eq hxo
      subst hidx
      rw [hex] at hpw hroles hmsg
      have hpw2 := List.pairwise_append.mp hpw
      have hne : ∀ y ∈ init, y.id ≠ x.id := fun y hy =>
        Nat.ne_of_lt (hpw2.2.2 y hy x (List.mem_singleton_self _))
      have hmap : L.exchanges.map
          (fun y => if y.id = x.id then { y with reply := some (replyOf settled iso) } else y) =
          init ++ [{ x with reply := some (replyOf settled iso) }] := by
        rw [hex, List.map_append, map_reply_of_ne x.id _ init hne]
        simp
      have hx := hroles x (List.mem_append.mpr (Or.inr (List.mem_singleton_self _)))
      refine ⟨⟨iso0, hwel, ?_⟩, ?_, ?_, Or.inl ⟨rfl, rfl, ?_⟩⟩
      · show w.view.messages ++ [replyOf settled iso] = _
        rw [hmsg]
        show _ = welcomeMessage iso0 :: rendered (L.exchanges.map _)
        rw [hmap, rendered_append, rendered_append]
        simp [rendered, Exchange.messages, hxr]
      · show List.Pairwise _ (L.exchanges.map _)
        rw [hmap]
        refine List.pairwise_append.mpr ⟨hpw2.1, List.pairwise_singleton _ _, ?_⟩
        intro a ha b hb
        simp only [List.mem_singleton] at hb
        subst hb
        exact hpw2.2.2 a ha x (List.mem_singleton_self _)
      · show ∀ y ∈ L.exchanges.map _, _
        rw [hmap]
        intro y hy
        rcases List.mem_append.mp hy with hy | hy
        · exact hroles y (List.mem_append.mpr (Or.inl hy))
        · simp only [List.mem_singleton] at hy
          subst hy
          exact ⟨hx.1, hx.2.1, fun r hr => by
            have : replyOf settled iso = r := Option.some.inj hr
            rw [← this]
            exact replyOf_role settled iso⟩
      · show ∀ y ∈ L.exchanges.map _, _
        rw [hmap]
        intro y hy
        rcases List.mem_append.mp hy with hy | hy
        · exact hinit y hy
        · simp only [List.mem_singleton] at hy
          subst hy
          rfl

theorem tracks_step (w : World) (L : Ledger) (e : Event) (h : Tracks w L) :
    Tracks (step w e) (record w L e) := by
  cases e with
  | mounted now rand iso =>
    have hr : record w L (Event.mounted now rand iso) = L.restart w iso := by
      simp [record, replacesTranscript]
    rw [hr]
    exact tracks_restart w _ L iso h (by simp [step, mount_eq]) (by simp [step, mount_eq])
      (by simp [step])
  | changed value =>
    exact tracks_frame w _ L h (by simp [step, setInput]) (by simp [step, setInput])
      (by simp [step])
  | submitted iso =>
    cases hg : (!(truthy (jsTrim w.view.input)) || w.view.loading) with
    | false => exact tracks_send w L iso h hg
    | true =>
      have hs := sendMessage_start_reject iso w.view hg
      have hr : record w L (Event.submitted iso) = L := by simp [record, hs]
      rw [hr]
      exact tracks_frame w _ L h (by simp [step, hs]) (by simp [step, hs]) (by simp [step, hs])
  | postSettled i settled iso =>
    by_cases hi : i < w.posts.length
    · exact tracks_settle w L i settled iso h hi
    · have hnone : L.outstanding[i]? = none :=
        List.getElem?_eq_none (by rw [h.1]; omega)
      have hr : record w L (Event.postSettled i settled iso) = L := by
        simp [record, hnone]
      rw [hr]
      exact tracks_frame w _ L h (by simp [step, hi]) (by simp [step, hi]) (by simp [step, hi])
  | clearClicked now rand iso =>
    obtain ⟨r, hs⟩ := clearChat_start_state w.view
    cases r with
    | none =>
      have hr : record w L (Event.clearClicked now rand iso) = L.restart w iso := by
        simp [record, replacesTranscript, hs]
      rw [hr]
      exact tracks_restart w _ L iso h (by simp [step, hs, clearChat_reset_eq])
        (by simp [step, hs, clearChat_reset_eq]) (by simp [step, hs])
    | some d =>
      have hr : record w L (Event.clearClicked now rand iso) = L := by
        simp [record, replacesTranscript, hs]
      rw [hr]
      exact tracks_frame w _ L h (by simp [step, hs]) (by simp [step, hs]) (by simp [step, hs])
  | deleteSettled i settled now rand iso =>
    by_cases hi : i < w.deletes.length
    · have hr : record w L (Event.deleteSettled i settled now rand iso) = L.restart w iso := by
        simp [record, replacesTranscript, hi]
      rw [hr]
      exact tracks_restart w _ L iso h (by simp [step, hi, clearChat_settle_eq])
        (by simp [step, hi, clearChat_settle_eq]) (by simp [step, hi])
    · have hr : record w L (Event.deleteSettled i settled now rand iso) = L := by
        simp [record, replacesTranscript, hi]
      rw [hr]
      exact tracks_frame w _ L h (by simp [step, hi]) (by simp [step, hi]) (by simp [step, hi])

theorem tracks_run (events : List Event) : ∀ (w : World) (L : Ledger), Tracks w L →
    Tracks (run w events) (recordAll w L events) := by
  induction events with
  | nil => intro w L h; exact h
  | cons e es ih => intro w L h; exact ih _ _ (tracks_step w L e h)

theorem tracks_initial : Tracks World.initial Ledger.initial :=
  ⟨rfl, by simp [World.initial], by simp [World.initial, View.initial],
    fun x hx => by simp [Ledger.initial] at hx,
    fun hc => by simp [Ledger.initial] at hc⟩

/-! ## The claims on reachable states -/

/-- C7, as stated, fails: in the state the component creates, before the mount
effect has run, the transcript is empty and so has no welcome message as its
first element. -/
theorem initial_transcript_empty :
    (run World.initial []).view.messages = [] ∧
    ¬ ∃ iso rest, (run World.initial []).view.messages = welcomeMessage iso :: rest := by
  refine ⟨rfl, ?_⟩
  rintro ⟨iso, rest, h⟩
  exact List.noConfusion h

/-- C7, amended: in every state reached from the initial state by a sequence
of events that contains the mount effect, the first element of the transcript
is a welcome message; and every event, in every page, leaves the transcript
unchanged, or appends one message at its end, or replaces it by the transcript
of the single welcome message. -/
theorem transcript_welcome_first_after_mount (events : List Event) (w : World) (e : Event)
    (hmount : ∃ m ∈ events, m.isMount = true) :
    (∃ iso rest, (run World.initial events).view.messages = welcomeMessage iso :: rest) ∧
    ((step w e).view.messages = w.view.messages ∨
      (∃ m, (step w e).view.messages = w.view.messages ++ [m]) ∨
      (∃ iso, (step w e).view.messages = [welcomeMessage iso])) :=
  ⟨run_welcome_first events World.initial (Or.inr hmount), step_messages w e⟩

/-- Witness for C7 amended: mount, then a send that fails. -/
theorem transcript_welcome_first_after_mount_witness :
    ∃ iso rest,
      (run World.initial
        [Event.mounted 1 "a" "T0", Event.changed "hi", Event.submitted "T1",
         Event.postSettled 0 (Except.error RequestError.timeout) "T2"]).view.messages =
        welcomeMessage iso :: rest :=
  (transcript_welcome_first_after_mount
    [Event.mounted 1 "a" "T0", Event.changed "hi", Event.submitted "T1",
     Event.postSettled 0 (Except.error RequestError.timeout) "T2"]
    World.initial (Event.changed "x")
    ⟨Event.mounted 1 "a" "T0", List.mem_cons_self _ _, rfl⟩).1

/-- C8: in every state reached from the initial state, at most one POST is
outstanding and the busy flag is set exactly when one is; there, an accepted
send sets the flag and leaves one POST outstanding, and the settlement of an
outstanding POST, success and failure alike, clears the flag and leaves none
outstanding. -/
theorem sends_single_flight (events : List Event) (w : World)
    (hw : w = run World.initial events) :
    w.posts.length ≤ 1 ∧
    (w.view.loading = true ↔ w.posts.length = 1) ∧
    (∀ iso, w.view.loading = false → jsTrim w.view.input ≠ "" →
      (step w (Event.submitted iso)).view.loading = true ∧
      (step w (Event.submitted iso)).posts.length = 1) ∧
    (∀ i settled iso, i < w.posts.length →
      (step w (Event.postSettled i settled iso)).view.loading = false ∧
      (step w (Event.postSettled i settled iso)).posts = []) := by
  have hinv := run_single_flight events World.initial
    ⟨by simp [World.initial], by simp [World.initial, View.initial]⟩
  rw [← hw] at hinv
  refine ⟨hinv.1, hinv.2, ?_, ?_⟩
  · intro iso hidle hdraft
    have hs := sendMessage_start_accept iso w.view (guard_accepts w.view hidle hdraft)
    have hlen : w.posts.length = 0 := by
      have : ¬ w.posts.length = 1 := fun hc => by
        have := hinv.2.mpr hc
        rw [hidle] at this
        exact Bool.noConfusion this
      have := hinv.1
      omega
    simp [step, hs, hlen]
  · intro i settled iso hi
    have hlen : (w.posts.eraseIdx i).length = 0 := by
      rw [List.length_eraseIdx, if_pos hi]
      have := hinv.1
      omega
    refine ⟨?_, ?_⟩
    · cases settled with
      | ok response => simp [step, hi, sendMessage_settle_ok]
      | error err => simp [step, hi, sendMessage_settle_error]
    · simpa [step, hi] using List.length_eq_zero.mp hlen

/-- Witness for C8: a mounted page with one send outstanding. -/
theorem sends_single_flight_witness :
    ((run World.initial
        [Event.mounted 1 "a" "T0", Event.changed "hi", Event.submitted "T1"]).view.loading = true ↔
      (run World.initial
        [Event.mounted 1 "a" "T0", Event.changed "hi", Event.submitted "T1"]).posts.length = 1) :=
  (sends_single_flight
    [Event.mounted 1 "a" "T0", Event.changed "hi", Event.submitted "T1"] _ rfl).2.1

/-- C9, as stated, fails: before the mount effect the transcript is empty, and
when a reset completes while a send is outstanding the reply of that send is
appended right after the new welcome message, with no user message before
it. -/
theorem reset_during_send_orphans_reply :
    (run World.initial []).view.messages = [] ∧
    (run World.initial
      [Event.mounted 1 "a" "T0", Event.changed "where is my order", Event.submitted "T1",
       Event.clearClicked 2 "b" "T2", Event.deleteSettled 0 (Except.ok ()) 3 "c" "T3",
       Event.postSettled 0
         (Except.ok { status := 200,
                      data := { response := "It ships tomorrow", timestamp := "T4",
                                escalation_needed := none } }) "T5"]).view.messages =
      [welcomeMessage "T3",
       { role := Role.assistant, content := "It ships tomorrow", timestamp := "T4",
         escalation_needed := none, error := none }] ∧
    repliesFollowUser
      (run World.initial
        [Event.mounted 1 "a" "T0", Event.changed "where is my order", Event.submitted "T1",
         Event.clearClicked 2 "b" "T2", Event.deleteSettled 0 (Except.ok ()) 3 "c" "T3",
         Event.postSettled 0
           (Except.ok { status := 200,
                        data := { response := "It ships tomorrow", timestamp := "T4",
                                  escalation_needed := none } }) "T5"]).view.messages = false := by
  decide

/-- C9, amended: in every state reached from the initial state in which the
transcript was last replaced, by the mount effect or by a completing reset,
while no send was outstanding, the transcript is the welcome message of that
replacement followed by the user messages sent since, in the order they were
sent, each settled one immediately followed by its own assistant reply and
the last one without reply exactly when its POST is the one outstanding; so
every assistant message other than the welcome message comes right after the
user message whose request produced it. -/
theorem transcript_in_send_order (events : List Event)
    (hclean : (recordAll World.initial Ledger.initial events).clean = true) :
    InSendOrder (run World.initial events) (recordAll World.initial Ledger.initial events) ∧
    repliesFollowUser (run World.initial events).view.messages = true ∧
    ∀ x ∈ (recordAll World.initial Ledger.initial events).exchanges, ∀ r,
      x.reply = some r →
      ∃ before after,
        (run World.initial events).view.messages = before ++ x.sent :: r :: after := by
  have hord := (tracks_run events World.initial Ledger.initial tracks_initial).2.2.2.2 hclean
  refine ⟨hord, ?_, ?_⟩
  · obtain ⟨⟨iso, _, hmsg⟩, _, hroles, _⟩ := hord
    rw [hmsg]
    exact repliesFollowUser_rendered _ _ hroles
  · intro x hx r hr
    obtain ⟨⟨iso, _, hmsg⟩, _, _, _⟩ := hord
    obtain ⟨b, a, hba⟩ := reply_right_after_sent _ x r hx hr
    exact ⟨welcomeMessage iso :: b, a, by rw [hmsg, hba]; rfl⟩

/-- Witness for C9 amended: a reset during a send, the late reply, then a
reset while idle followed by two sends with their replies. -/
theorem transcript_in_send_order_witness :
    (run World.initial
      [Event.mounted 1 "a" "T0", Event.changed "first", Event.submitted "T1",
       Event.clearClicked 2 "b" "T2", Event.deleteSettled 0 (Except.ok ()) 3 "c" "T3",
       Event.postSettled 0 (Except.error RequestError.timeout) "T4",
       Event.clearClicked 4 "d" "T5", Event.deleteSettled 0 (Except.ok ()) 5 "e" "T6",
       Event.changed "second", Event.submitted "T7",
       Event.postSettled 0
         (Except.ok { status := 200,
                      data := { response := "reply two", timestamp := "T8",
                                escalation_needed := none } }) "T9",
       Event.changed "third", Event.submitted "T10"]).view.messages =
      [welcomeMessage "T6",
       { role := Role.user, content := "second", timestamp := "T7",
         escalation_needed := none, error := none },
       { role := Role.assistant, content := "reply two", timestamp := "T8",
         escalation_needed := none, error := none },
       { role := Role.user, content := "third", timestamp := "T10",
         escalation_needed := none, error := none }] ∧
    repliesFollowUser
      (run World.initial
        [Event.mounted 1 "a" "T0", Event.changed "first", Event.submitted "T1",
         Event.clearClicked 2 "b" "T2", Event.deleteSettled 0 (Except.ok ()) 3 "c" "T3",
         Event.postSettled 0 (Except.error RequestError.timeout) "T4",
         Event.clearClicked 4 "d" "T5", Event.deleteSettled 0 (Except.ok ()) 5 "e" "T6",
         Event.changed "second", Event.submitted "T7",
         Event.postSettled 0
           (Except.ok { status := 200,
                        data := { response := "reply two", timestamp := "T8",
                                  escalation_needed := none } }) "T9",
         Event.changed "third", Event.submitted "T10"]).view.messages = true :=
  ⟨by decide,
   (transcript_in_send_order
    [Event.mounted 1 "a" "T0", Event.changed "first", Event.submitted "T1",
     Event.clearClicked 2 "b" "T2", Event.deleteSettled 0 (Except.ok ()) 3 "c" "T3",
     Event.postSettled 0 (Except.error RequestError.timeout) "T4",
     Event.clearClicked 4 "d" "T5", Event.deleteSettled 0 (Except.ok ()) 5 "e" "T6",
     Event.changed "second", Event.submitted "T7",
     Event.postSettled 0
       (Except.ok { status := 200,
                    data := { response := "reply two", timestamp := "T8",
                              escalation_needed := none } }) "T9",
     Event.changed "third", Event.submitted "T10"] (by decide)).2.1⟩

end App
